import Mathlib

/-!
Shallow embedding of the conversation-grounded AI query pipeline of the
legal-document backend: the query orchestrator and conversation CRUD of
`src/services/lexiAIService.js`, the generation provider adapter of
`src/services/aiService.js`, and the uniform operational error of
`src/utils/apiError.js`.

Modelling conventions:
- JS exceptions become `Except JSError`; `APIError` values are `JSError.api
  message status` and plain `Error` values are `JSError.generic message`.
- The document database is a list of conversations; `findOne` becomes
  `List.find?` over the same filter the source builds.
- The remote generative-AI backend and the JSON.parse builtin are external
  to the repository; they are supplied as an environment `AIEnv` of oracles
  (one per outbound call shape), so every repository-side branch is embedded
  exactly while the network stays a parameter.
- Absent (undefined) string inputs are modelled by `Option` where the source
  distinguishes them, and by the empty string where the source only performs
  a JS truthiness test on a string.
- Wall-clock time is irrelevant to every claim; `responseTime` is modelled
  as the constant 0.
-/

namespace Construct

/-- HTTP-style status codes used by the service (the `http-status` package). -/
def BAD_REQUEST : Nat := 400

def NOT_FOUND : Nat := 404

def INTERNAL_SERVER_ERROR : Nat := 500

/-- A thrown JS value: either the uniform operational `APIError` of
`src/utils/apiError.js` (message + HTTP-style status) or a plain `Error`
with only a message. -/
inductive JSError where
  | api (message : String) (status : Nat)
  | generic (message : String)
deriving Repr, DecidableEq

/-- The `.message` property, defined on both error shapes. -/
def errMessage : JSError → String
  | .api m _ => m
  | .generic m => m

/-- JS string-or-default: `s || d` on an optional string, where both
`undefined` and the empty string are falsy. -/
def jsOr (o : Option String) (d : String) : String :=
  match o with
  | some s => if s == "" then d else s
  | none => d

/-- A JS value handed to the pure text extractors: null/undefined, a string,
or any non-string value. -/
inductive JSVal where
  | jnull
  | jstr (s : String)
  | jother
deriving Repr, DecidableEq

/-- Message metadata as assembled by the orchestrator
(`lexiAIService.processLegalQuery`); the store keeps at least the `type`
field. Fields absent in JS are `none` / empty lists. -/
structure Metadata where
  type : Option String := none
  documentType : Option String := none
  tone : Option String := none
  responseTime : Option Nat := none
  references : List String := []
  suggestions : List String := []
  provider : Option String := none
deriving Repr, DecidableEq

/-- One message of a conversation document: role, content, metadata
(timestamps are irrelevant to every claim and are not modelled). -/
structure Message where
  role : String
  content : String
  metadata : Metadata
deriving Repr, DecidableEq

/-- A conversation document of the store, as read and written by
`lexiAIService`: identity, owning user, lifecycle status and the ordered
message sequence. -/
structure Conversation where
  id : Nat
  userId : Nat
  title : String
  description : String
  status : String
  messages : List Message
deriving Repr, DecidableEq

/-- The seed system message installed by `createConversation`
(`lexiAIService.js` lines 20-28). -/
def seedSystemMessage : Message :=
  { role := "system"
  , content := "You are a legal document assistant. You help users understand, analyze, and improve legal documents."
  , metadata := { type := some "system" } }

/-- Embedding of `lexiAIService.createConversation` (lines 7-38): validate
the user id and title, then build a conversation holding exactly the seed
system message. The database-generated `_id` is the `id` parameter. -/
def createConversation (id : Nat) (userId : Option Nat) (title : String)
    (description : String := "") : Except JSError Conversation :=
  match userId with
  | none => .error (.api "User ID is required" BAD_REQUEST)
  | some uid =>
    if title == "" then .error (.api "Title is required" BAD_REQUEST)
    else .ok { id := id, userId := uid, title := title, description := description
             , status := "active", messages := [seedSystemMessage] }

/-- Embedding of `lexiAIService.getConversation` (lines 40-66): validate the
ids, then `findOne` with the filter id = conversationId, userId = userId and
status different from "deleted"; a miss is the uniform `NotFound` error. -/
def getConversation (db : List Conversation) (conversationId userId : Option Nat) :
    Except JSError Conversation :=
  match conversationId with
  | none => .error (.api "Conversation ID is required" BAD_REQUEST)
  | some cid =>
    match userId with
    | none => .error (.api "User ID is required" BAD_REQUEST)
    | some uid =>
      match db.find? (fun c => c.id == cid && c.userId == uid && c.status != "deleted") with
      | none => .error (.api "Conversation not found" NOT_FOUND)
      | some c => .ok c

/-- Modelled from the spec: the `Conversation` document model
(`conversation.model.js`) is not among the sources, only its callers are.
Per the spec, messages are append-only and the model-level `addMessage`
appends one message with the given role, content and metadata to the end of
the conversation message sequence. -/
def conversationAddMessage (c : Conversation) (role content : String)
    (metadata : Metadata) : Conversation :=
  { c with messages := c.messages ++ [{ role := role, content := content, metadata := metadata }] }

/-- Embedding of `lexiAIService.addMessage` (lines 105-136): validate ids,
role and content; default the metadata `type` from the role when the caller
supplies none (a JS-falsy `type`); load the conversation; append the
message. Returns the updated database together with the updated
conversation. -/
def addMessage (db : List Conversation) (conversationId userId : Option Nat)
    (role content : String) (metadata : Metadata) :
    Except JSError (List Conversation × Conversation) :=
  match conversationId with
  | none => .error (.api "Conversation ID is required" BAD_REQUEST)
  | some _ =>
    match userId with
    | none => .error (.api "User ID is required" BAD_REQUEST)
    | some _ =>
      if role == "" then .error (.api "Message role is required" BAD_REQUEST)
      else if content == "" then .error (.api "Message content is required" BAD_REQUEST)
      else
        let metadata :=
          if metadata.type.getD "" == "" then
            { metadata with type := some (if role == "system" then "system" else "chat") }
          else metadata
        match getConversation db conversationId userId with
        | .error e => .error e
        | .ok conversation =>
          let conversation := conversationAddMessage conversation role content metadata
          .ok (db.map (fun c => if c.id == conversation.id then conversation else c), conversation)

deriving instance DecidableEq for Except

/-- One entry of the provider-formatted chat history handed to the remote
chat API by `aiService.generateWithChatHistory`: the provider role and a
list of text parts. -/
structure GooglePart where
  text : String
deriving Repr, DecidableEq

/-- A provider-vocabulary history entry (role "user" or "model"). -/
structure GoogleHistEntry where
  role : String
  parts : List GooglePart
deriving Repr, DecidableEq

/-- A local-vocabulary history entry as built by the orchestrator from a
conversation (role plus a single text in `parts`). -/
structure HistEntry where
  role : String
  parts : String
deriving Repr, DecidableEq

/-- The shape of the JSON object the intent classifier reads back from the
provider: the three fields `analyzeIntent` accesses, each possibly absent. -/
structure IntentJson where
  type : Option String := none
  clauseType : Option String := none
  confidence : Option Rat := none
deriving Repr, DecidableEq

/-- External world of the adapter: whether the Google AI client is
configured, one oracle per outbound call shape (single-turn generation and
chat with history, each keyed by model name and the exact data the source
sends), and the JSON.parse builtin restricted to the fields the classifier
reads. Oracles return either a response text or the message of the thrown
error. -/
structure AIEnv where
  configured : Bool
  genCall : String → String → String → Except String String
  chatCall : String → String → List GoogleHistEntry → String → Except String String
  jsonParse : String → Option IntentJson

/-- Recognized fields of the options bag of the adapter. -/
structure GenOptions where
  systemPrompt : Option String := none
  temperature : Option Rat := none
  maxTokens : Option Nat := none

/-- The fixed ordered fallback model list of `aiService.js` (line 28). -/
def modelNames : List String := ["gemini-2.5-flash", "gemini-1.5-flash", "gemini-pro"]

/-- Default system prompt of the adapter (`aiService.js` lines 37 and 72). -/
def defaultAdapterPrompt : String :=
  "You are a legal contract expert. Generate professional, legally sound contracts."

/-- The for-loop of `aiService.generateWithGoogleAI` (lines 30-51): try each
model name in order, return the first successful text, move on upon any
error; after the list is exhausted throw the fresh generic error. -/
def tryModelsGen (env : AIEnv) (sys prompt : String) : List String → Except JSError String
  | [] => .error (.generic "All Google AI models failed")
  | m :: rest =>
    match env.genCall m sys prompt with
    | .ok t => .ok t
    | .error _ => tryModelsGen env sys prompt rest

/-- Embedding of `aiService.generateWithGoogleAI` (lines 22-52): fail when
the client is unconfigured, otherwise run the ordered model fallback with
the resolved system prompt. -/
def generateWithGoogleAI (env : AIEnv) (prompt : String) (options : GenOptions) :
    Except JSError String :=
  if !env.configured then .error (.generic "Google AI not configured")
  else tryModelsGen env (jsOr options.systemPrompt defaultAdapterPrompt) prompt modelNames

/-- History translation of `aiService.generateWithChatHistory` (lines
76-81): drop system-role entries and map local roles to provider roles,
wrapping each text into a parts list. -/
def googleChatHistory (history : List HistEntry) : List GoogleHistEntry :=
  (history.filter (fun m => m.role != "system")).map
    (fun m => { role := if m.role == "user" then "user" else "model"
              , parts := [{ text := m.parts }] })

/-- The for-loop of `aiService.generateWithChatHistory` (lines 68-106): try
each model in order; a success returns the response text together with the
updated history (input history plus the new user and model turns); after
the list is exhausted throw the fresh generic error. -/
def tryModelsChat (env : AIEnv) (sys : String) (history : List HistEntry) (prompt : String) :
    List String → Except JSError (String × List HistEntry)
  | [] => .error (.generic "All Google AI models failed")
  | m :: rest =>
    match env.chatCall m sys (googleChatHistory history) prompt with
    | .ok responseText =>
      .ok (responseText,
        history ++ [{ role := "user", parts := prompt }, { role := "model", parts := responseText }])
    | .error _ => tryModelsChat env sys history prompt rest

/-- Embedding of `aiService.generateWithChatHistory` (lines 61-109). -/
def generateWithChatHistory (env : AIEnv) (prompt : String) (history : List HistEntry)
    (options : GenOptions) : Except JSError (String × List HistEntry) :=
  if !env.configured then .error (.generic "Google AI not configured")
  else tryModelsChat env (jsOr options.systemPrompt defaultAdapterPrompt) history prompt modelNames

/-- Left-brace character, kept out of string literals. -/
def lbrace : Char := Char.ofNat 123

/-- Right-brace character, kept out of string literals. -/
def rbrace : Char := Char.ofNat 125

/-- The brace-substring extraction of `analyzeIntent` (line 314): the JS
regex matches greedily from the first left brace to the last right brace of
the response, provided the latter comes after the former. -/
def braceMatch (s : String) : Option String :=
  let cs := s.data
  match cs.findIdx? (fun c => c == lbrace) with
  | none => none
  | some i =>
    match cs.reverse.findIdx? (fun c => c == rbrace) with
    | none => none
    | some jr =>
      let j := cs.length - 1 - jr
      if i < j then some (String.mk ((cs.drop i).take (j - i + 1))) else none

/-- The fixed classification instruction of `analyzeIntent` (line 303). -/
def analyzeIntentPrompt : String :=
  "Analyze this legal query and determine the intent. Return a JSON object with type and confidence."

/-- The options `analyzeIntent` passes to the adapter (lines 302-306). -/
def analyzeIntentOptions : GenOptions :=
  { systemPrompt := some analyzeIntentPrompt, temperature := some 0.3, maxTokens := some 500 }

/-- The transient intent record (type, optional clause type, confidence). -/
structure Intent where
  type : String
  clauseType : Option String := none
  confidence : Rat
deriving Repr, DecidableEq

/-- Embedding of `lexiAIService.analyzeIntent` (lines 300-333): one
generation call; direct JSON parse, then brace-substring parse; every
failure path collapses to the default intent with type "general" and
confidence 0.95; on success a falsy type defaults to "general" and a falsy
confidence to 0.95. Total by construction: classification failure is never
surfaced as an error. -/
def analyzeIntent (env : AIEnv) (message : String) : Intent :=
  match generateWithGoogleAI env message analyzeIntentOptions with
  | .error _ => { type := "general", confidence := 0.95 }
  | .ok responseText =>
    let parsed : Option IntentJson :=
      match env.jsonParse responseText with
      | some r => some r
      | none =>
        match braceMatch responseText with
        | some sub => env.jsonParse sub
        | none => none
    match parsed with
    | none => { type := "general", confidence := 0.95 }
    | some result =>
      { type := jsOr result.type "general"
      , clauseType := result.clauseType
      , confidence :=
          match result.confidence with
          | some c => if c == 0 then 0.95 else c
          | none => 0.95 }

/-- The switch block of `lexiAIService.prepareSystemMessage` (lines
269-287): one clause keyed by the intent type; the suggest clause splices
the clause type (JS renders an absent one as the text "undefined"); the
adjust clause uses the tone, defaulting to "formal". -/
def intentClause (intent : Intent) (tone : Option String) : String :=
  match intent.type with
  | "summarize" => "Summarize the following text in a clear and concise manner."
  | "explain" => "Explain the following legal terms and concepts in plain English."
  | "analyze" => "Analyze the following text for potential risks, missing clauses, and enforceability concerns."
  | "suggest" =>
    "Suggest appropriate " ++ (intent.clauseType.getD "undefined") ++ " clauses based on the following context."
  | "adjust" =>
    "Rewrite the following text in a " ++ jsOr tone "formal" ++ " tone while maintaining its legal meaning."
  | _ => "Provide clear, accurate, and helpful legal information."

/-- Embedding of `lexiAIService.prepareSystemMessage` (lines 266-298): base
sentence, intent clause, then a context sentence when a document type is
given (JS-truthy) and a tone instruction sentence when a tone is given
(JS-truthy). -/
def prepareSystemMessage (intent : Intent) (documentType tone : Option String) : String :=
  let baseMessage := "You are a legal document assistant. " ++ intentClause intent tone
  let baseMessage :=
    match documentType with
    | some dt => if dt == "" then baseMessage else baseMessage ++ " The context is about a " ++ dt ++ "."
    | none => baseMessage
  match tone with
  | some t => if t == "" then baseMessage else baseMessage ++ " Use a " ++ t ++ " tone in your response."
  | none => baseMessage

/-- Embedding of `lexiAIService.mapIntentToMetadataType` (lines 384-404):
the closed mapping table from classifier vocabulary to the persisted
metadata kinds, defaulting to "chat". -/
def mapIntentToMetadataType (intentType : String) : String :=
  match intentType with
  | "summarize" => "summarize"
  | "explain" => "explain"
  | "analyze" => "analyze"
  | "suggest" => "suggest"
  | "adjust" => "adjust"
  | "InformationRequest" => "chat"
  | "ClarificationRequest" => "chat"
  | "GeneralQuery" => "chat"
  | "LegalAdvice" => "chat"
  | "DocumentReview" => "analyze"
  | "RiskAssessment" => "analyze"
  | "ComplianceCheck" => "analyze"
  | "ClauseGeneration" => "suggest"
  | "ToneAdjustment" => "adjust"
  | _ => "chat"

/-- Character classes appearing in the three reference regexes of
`extractReferences` (lines 341-343). -/
inductive RChar where
  | lit (c : Char)
  | digit
  | space
  | upper
  | alpha
  | alphaSpace
deriving Repr, DecidableEq

/-- Whitespace as matched by the JS regex class for spaces (the code points
the reference patterns can meet in generated text). -/
def isJsSpace (c : Char) : Bool :=
  c == ' ' || c == '\t' || c == '\n' || c == '\r'

/-- Does character `c` match class `m`; `ci` is the case-insensitive flag
(the `i` of the section regex). -/
def charMatch (ci : Bool) (m : RChar) (c : Char) : Bool :=
  match m with
  | .lit d => if ci then d.toLower == c.toLower else d == c
  | .digit => c.isDigit
  | .space => isJsSpace c
  | .upper => if ci then c.isAlpha else c.isUpper
  | .alpha => c.isAlpha
  | .alphaSpace => c.isAlpha || isJsSpace c

/-- Regular-expression syntax needed by the three reference patterns. -/
inductive Regex where
  | eps
  | ch (m : RChar)
  | seq (r1 r2 : Regex)
  | alt (r1 r2 : Regex)
  | star (r : Regex)
deriving Repr, DecidableEq

/-- A literal string as a regex. -/
def rstr (s : String) : Regex :=
  s.data.foldr (fun c r => .seq (.ch (.lit c)) r) .eps

/-- Greedy one-or-more. -/
def rplus (r : Regex) : Regex := .seq r (.star r)

/-- Greedy zero-or-one. -/
def ropt (r : Regex) : Regex := .alt r .eps

/-- Backtracking matcher: all (consumed, rest) splittings of the input
accepted by `r`, in the priority order of a JS regex engine (alternatives
left first, quantifiers greedy). The fuel bounds star unrolling; one unit
per star iteration suffices because an iteration must consume input. -/
def rmatch (ci : Bool) : Nat → Regex → List Char → List (List Char × List Char)
  | _, .eps, s => [([], s)]
  | _, .ch _, [] => []
  | _, .ch m, c :: rest => if charMatch ci m c then [([c], rest)] else []
  | fuel, .alt r1 r2, s => rmatch ci fuel r1 s ++ rmatch ci fuel r2 s
  | fuel, .seq r1 r2, s =>
    (rmatch ci fuel r1 s).flatMap
      (fun p => (rmatch ci fuel r2 p.2).map (fun q => (p.1 ++ q.1, q.2)))
  | 0, .star _, s => [([], s)]
  | fuel + 1, .star r, s =>
    (((rmatch ci (fuel + 1) r s).filter (fun p => !p.1.isEmpty)).flatMap
      (fun p => (rmatch ci fuel (.star r) p.2).map (fun q => (p.1 ++ q.1, q.2))))
      ++ [([], s)]
termination_by fuel r _ => (fuel, sizeOf r)

/-- The global-match scan of `String.prototype.match` with the `g` flag:
repeatedly take the first match from the current position, emit it and
resume after it (one character further on an empty match or a miss). The
fuel is the input length plus one. -/
def jsMatchAllGo (ci : Bool) (r : Regex) : Nat → List Char → List String
  | 0, _ => []
  | _ + 1, [] =>
    match (rmatch ci 1 r []).head? with
    | some _ => [String.mk []]
    | none => []
  | fuel + 1, s =>
    match (rmatch ci (s.length + 1) r s).head? with
    | some (consumed, rest) =>
      if consumed.isEmpty then
        match s with
        | [] => [String.mk []]
        | _ :: t => String.mk consumed :: jsMatchAllGo ci r fuel t
      else String.mk consumed :: jsMatchAllGo ci r fuel rest
    | none =>
      match s with
      | [] => []
      | _ :: t => jsMatchAllGo ci r fuel t

/-- All matches of `r` over `s` in the manner of `s.match(r)` with a global
flag (empty output when there is none, where JS returns null). -/
def jsMatchAll (ci : Bool) (r : Regex) (s : List Char) : List String :=
  jsMatchAllGo ci r (s.length + 1) s

/-- The section/article pattern of `extractReferences` (line 341),
case-insensitive. -/
def sectionRegex : Regex :=
  .seq (.alt (rstr "Section") (rstr "Article"))
  (.seq (rplus (.ch .space))
  (.seq (rplus (.ch .digit))
  (.seq (ropt (.ch .alpha))
  (.seq (rplus (.ch .space))
  (ropt (.seq (rstr "of")
        (.seq (rplus (.ch .space))
        (.seq (rstr "the")
        (.seq (rplus (.ch .space))
        (.seq (rplus (.ch .alphaSpace)) (rstr "Act")))))))))))

/-- The case-citation pattern of `extractReferences` (line 342). -/
def caseRegex : Regex :=
  .seq (.ch .upper)
  (.seq (rplus (.ch .alpha))
  (.seq (rplus (.ch .space))
  (.seq (.ch (.lit 'v'))
  (.seq (.ch (.lit '.'))
  (.seq (rplus (.ch .space))
  (.seq (.ch .upper) (rplus (.ch .alpha))))))))

/-- The act-name pattern of `extractReferences` (line 343). -/
def actRegex : Regex :=
  .seq (.ch .upper)
  (.seq (rplus (.ch .alphaSpace))
  (.seq (rstr "Act")
  (ropt (.seq (ropt (.ch (.lit ',')))
        (.seq (.star (.ch .space))
        (.seq (.ch .digit) (.seq (.ch .digit) (.seq (.ch .digit) (.ch .digit)))))))))

/-- The JS `new Set` of a string list spread back into an array: keep the
first occurrence of each element, in order. -/
def uniqueList (l : List String) : List String :=
  l.foldl (fun acc x => if acc.contains x then acc else acc ++ [x]) []

/-- Embedding of `lexiAIService.extractReferences` (lines 335-352): empty
output on null/non-string (and on the JS-falsy empty string); otherwise the
concatenated global matches of the three patterns, de-duplicated through a
Set. -/
def extractReferences (text : JSVal) : List String :=
  match text with
  | .jstr s =>
    if s == "" then []
    else
      let cs := s.data
      let sectionMatches := jsMatchAll true sectionRegex cs
      let caseMatches := jsMatchAll false caseRegex cs
      let actMatches := jsMatchAll false actRegex cs
      uniqueList (sectionMatches ++ caseMatches ++ actMatches)
  | _ => []

/-- The line splitting of `extractSuggestions` (line 359): split on a
newline optionally preceded by a carriage return. -/
def splitCRLF : List Char → List (List Char)
  | [] => [[]]
  | '\r' :: '\n' :: rest => [] :: splitCRLF rest
  | '\n' :: rest => [] :: splitCRLF rest
  | c :: rest =>
    match splitCRLF rest with
    | [] => [[c]]
    | l :: ls => (c :: l) :: ls

/-- String-level view of `splitCRLF`. -/
def splitLines (s : String) : List String :=
  (splitCRLF s.data).map String.mk

/-- Leading-whitespace removal on a character list. -/
def trimLeftChars : List Char → List Char
  | [] => []
  | c :: rest => if c.isWhitespace then trimLeftChars rest else c :: rest

/-- The JS `String.prototype.trim` builtin: strip whitespace from both ends
of the string. -/
def jsTrim (s : String) : String :=
  String.mk ((trimLeftChars ((trimLeftChars s.data).reverse)).reverse)

/-- Boolean prefix test on character lists. -/
def isPrefixChars : List Char → List Char → Bool
  | [], _ => true
  | _ :: _, [] => false
  | p :: ps, c :: cs => p == c && isPrefixChars ps cs

/-- The JS `String.prototype.startsWith` builtin. -/
def jsStartsWith (s pre : String) : Bool := isPrefixChars pre.data s.data

/-- The fixed closed action-verb list of `extractSuggestions` (lines
360-372). -/
def actionVerbs : List String :=
  ["Consider", "Ensure", "Review", "Verify", "Confirm", "Add", "Remove",
   "Update", "Check", "Include", "Exclude"]

/-- Embedding of `lexiAIService.extractSuggestions` (lines 354-382): empty
output on null/non-string (and on the JS-falsy empty string); otherwise scan
the lines, and for each line push its trimmed form once as soon as the first
verb it starts with is found (the inner break). -/
def extractSuggestions (text : JSVal) : List String :=
  match text with
  | .jstr s =>
    if s == "" then []
    else
      (splitLines s).foldl
        (fun suggestions line =>
          match actionVerbs.find? (fun verb => jsStartsWith (jsTrim line) verb) with
          | some _ => suggestions ++ [jsTrim line]
          | none => suggestions)
        []
  | _ => []

/-- The options bag of `processLegalQuery` (line 179). -/
structure Options where
  conversationId : Option Nat := none
  userId : Option Nat := none
  documentType : Option String := none
  tone : Option String := none

/-- The result shape returned by `processLegalQuery` (lines 254-257). -/
structure QueryResult where
  text : String
  metadata : Metadata
deriving Repr, DecidableEq

/-- The history formatting of `processLegalQuery` (lines 208-213): the
non-system messages of a conversation mapped into provider-history entries,
role "user" kept and every other role sent as "model". -/
def toProviderHistory (c : Conversation) : List HistEntry :=
  (c.messages.filter (fun m => m.role != "system")).map
    (fun m => { role := if m.role == "user" then "user" else "model", parts := m.content })

/-- The catch of the inner try of `processLegalQuery` (lines 233-235): every
error caught there, uniform or not, is re-wrapped into a fresh uniform
500 error. -/
def wrapInner (e : JSError) : JSError :=
  .api ("Error processing legal query: " ++ errMessage e) INTERNAL_SERVER_ERROR

/-- The catch of the outer try of `processLegalQuery` (lines 258-263): an
error already in the uniform shape is rethrown unchanged, anything else is
wrapped into a uniform 500 error. -/
def wrapOuter (e : JSError) : JSError :=
  match e with
  | .api m s => .api m s
  | .generic m => .api ("Error processing legal query: " ++ m) INTERNAL_SERVER_ERROR

/-- Steps 202-215 of `processLegalQuery`: when both ids are supplied, load
the conversation (propagating its errors) and format its history; otherwise
the history stays empty. -/
def legalQueryHistory (db : List Conversation) (opts : Options) :
    Except JSError (List HistEntry) :=
  match opts.conversationId, opts.userId with
  | some _, some _ =>
    match getConversation db opts.conversationId opts.userId with
    | .error e => .error e
    | .ok conversation => .ok (toProviderHistory conversation)
  | _, _ => .ok []

/-- The inner try of `processLegalQuery` (lines 201-235): load the history,
then generate with chat history when it is non-empty and with single-turn
generation (temperature 0.7, maxTokens 1000) otherwise; every error of this
block is re-wrapped by `wrapInner`. -/
def legalQueryGenerate (env : AIEnv) (db : List Conversation) (message : String)
    (opts : Options) (systemMessage : String) : Except JSError String :=
  match legalQueryHistory db opts with
  | .error e => .error (wrapInner e)
  | .ok history =>
    let r :=
      if history.length > 0 then
        (generateWithChatHistory env message history
          { systemPrompt := some systemMessage, temperature := some 0.7 }).map Prod.fst
      else
        generateWithGoogleAI env message
          { systemPrompt := some systemMessage, temperature := some 0.7, maxTokens := some 1000 }
    match r with
    | .error e => .error (wrapInner e)
    | .ok t => .ok t

/-- Number of provider-adapter invocations the inner try performs: one
generation call when the history loads, none when loading fails before the
call. -/
def legalQueryProviderCalls (db : List Conversation) (opts : Options) : Nat :=
  match legalQueryHistory db opts with
  | .error _ => 0
  | .ok _ => 1

/-- The result metadata assembled at lines 238-246 (wall-clock response time
modelled as 0). -/
def assembleMetadata (opts : Options) (intent : Intent) (aiResponse : String) : Metadata :=
  { type := some (mapIntentToMetadataType intent.type)
  , documentType := opts.documentType
  , tone := opts.tone
  , responseTime := some 0
  , references := extractReferences (.jstr aiResponse)
  , suggestions := extractSuggestions (.jstr aiResponse)
  , provider := some "google" }

/-- Embedding of `lexiAIService.processLegalQuery` (lines 178-264), the
query orchestrator. Returns the outcome, the final database, and the number
of provider-adapter invocations made (the classifier always makes exactly
one, the generation step one more when reached). An absent message is
modelled by the empty string, which is what the JS truthiness test at line
183 observes. -/
def processLegalQuery (env : AIEnv) (db : List Conversation) (message : String)
    (options : Options) : Except JSError QueryResult × List Conversation × Nat :=
  if message == "" then (.error (.api "Message is required" BAD_REQUEST), db, 0)
  else
    let intent := analyzeIntent env message
    let metadataType := mapIntentToMetadataType intent.type
    let systemMessage := prepareSystemMessage intent options.documentType options.tone
    let calls := 1 + legalQueryProviderCalls db options
    match legalQueryGenerate env db message options systemMessage with
    | .error e => (.error (wrapOuter e), db, calls)
    | .ok aiResponse =>
      let metadata := assembleMetadata options intent aiResponse
      match options.conversationId, options.userId with
      | some _, some _ =>
        (match addMessage db options.conversationId options.userId "user" message
            { type := some metadataType } with
         | .error e => (.error (wrapOuter e), db, calls)
         | .ok (db1, _) =>
           match addMessage db1 options.conversationId options.userId "assistant" aiResponse
               metadata with
           | .error e => (.error (wrapOuter e), db1, calls)
           | .ok (db2, _) => (.ok { text := aiResponse, metadata := metadata }, db2, calls))
      | _, _ => (.ok { text := aiResponse, metadata := metadata }, db, calls)

/-! Helper lemmas. -/

theorem getLast?_append_singleton {α : Type} (l : List α) (a : α) :
    (l ++ [a]).getLast? = some a := by
  rw [List.getLast?_append_of_ne_nil l (by simp)]; rfl

theorem uniqueList_loop_nodup (l : List String) :
    ∀ acc : List String, acc.Nodup →
    (l.foldl (fun acc x => if acc.contains x then acc else acc ++ [x]) acc).Nodup := by
  induction l with
  | nil => intro acc h; simpa using h
  | cons x rest ih =>
    intro acc h
    simp only [List.foldl_cons]
    by_cases hx : acc.contains x = true
    · rw [if_pos hx]
      exact ih acc h
    · have hnx : x ∉ acc := by simpa using hx
      have hn : (acc ++ [x]).Nodup := by
        rw [← List.concat_eq_append]
        exact List.Nodup.concat hnx h
      rw [if_neg hx]
      exact ih (acc ++ [x]) hn

theorem uniqueList_nodup (l : List String) : (uniqueList l).Nodup :=
  uniqueList_loop_nodup l [] List.nodup_nil

/-! Claim theorems. -/

/-- C7: for every empty or absent input message (modelled by the empty
string, the value the JS truthiness test observes), `processLegalQuery`
fails with the ValidationError "Message is required" of status 400, the
database is untouched, and zero provider-adapter invocations are made,
regardless of the other options supplied and of the provider environment. -/
theorem processLegalQuery_empty_message_validation (env : AIEnv) (db : List Conversation)
    (options : Options) :
    processLegalQuery env db "" options
      = (.error (.api "Message is required" BAD_REQUEST), db, 0) := rfl

/-- C9: the result of `extractReferences` never contains duplicate entries
(de-duplication through the Set over the concatenated matches of the three
patterns), and both `extractReferences` and `extractSuggestions` return the
empty list on null and on non-string input. -/
theorem extractReferences_nodup_and_degrade :
    (∀ s : String, (extractReferences (.jstr s)).Nodup)
    ∧ extractReferences .jnull = [] ∧ extractReferences .jother = []
    ∧ extractSuggestions .jnull = [] ∧ extractSuggestions .jother = [] := by
  refine ⟨?_, rfl, rfl, rfl, rfl⟩
  intro s
  unfold extractReferences
  by_cases h : s == ""
  · simp [h]
  · simp only [h, Bool.false_eq_true, if_false]
    exact uniqueList_nodup _

/-- C3 counterexample: for intent type adjust with the given tone "casual",
`prepareSystemMessage` does append the separate tone instruction sentence
after the adjust clause — the output is the adjust prompt followed by
" Use a casual tone in your response.", and differs from the adjust prompt
alone, contrary to the claim that no tone sentence is appended for adjust. -/
theorem prepareSystemMessage_adjust_tone_cex :
    prepareSystemMessage { type := "adjust", confidence := 0.95 } none (some "casual")
      = "You are a legal document assistant. Rewrite the following text in a casual tone while maintaining its legal meaning."
        ++ " Use a casual tone in your response."
    ∧ prepareSystemMessage { type := "adjust", confidence := 0.95 } none (some "casual")
      ≠ "You are a legal document assistant. Rewrite the following text in a casual tone while maintaining its legal meaning." := by
  constructor
  · decide
  · decide

/-- C3 amended: `prepareSystemMessage` appends the tone instruction sentence
whenever a non-empty tone is given, for every intent including adjust (where
the adjust clause has also already consumed the tone), so for intent adjust
with a given tone the tone wording appears twice; the spec test still holds
(the casual prompt mentions a casual tone and never a formal tone). -/
theorem prepareSystemMessage_tone_always_appended (intent : Intent)
    (documentType : Option String) (t : String) (h : t ≠ "") :
    ∃ p, prepareSystemMessage intent documentType (some t)
      = p ++ " Use a " ++ t ++ " tone in your response." := by
  have hb : (t == "") = false := by simp [h]
  unfold prepareSystemMessage
  cases documentType with
  | none =>
    simp only [hb, Bool.false_eq_true, if_false]
    exact ⟨_, rfl⟩
  | some dt =>
    by_cases hd : (dt == "") = true
    · simp only [hb, hd, Bool.false_eq_true, if_false, if_true]
      exact ⟨_, rfl⟩
    · simp only [hb, eq_self_iff_true, Bool.false_eq_true, if_false, if_neg hd]
      exact ⟨_, rfl⟩

/-- C3 witness: the amended theorem at intent adjust, no document type and
tone "casual". -/
theorem prepareSystemMessage_tone_always_appended_witness :
    ∃ p, prepareSystemMessage { type := "adjust", confidence := 0.95 } none (some "casual")
      = p ++ " Use a " ++ "casual" ++ " tone in your response." :=
  prepareSystemMessage_tone_always_appended
    { type := "adjust", confidence := 0.95 } none "casual" (by decide)

/-- Environment in which every model of the fallback list fails, the three
with the three given error messages. -/
def allFailEnv (e1 e2 e3 : String) : AIEnv :=
  { configured := true
  , genCall := fun m _ _ =>
      .error (if m == "gemini-2.5-flash" then e1 else if m == "gemini-1.5-flash" then e2 else e3)
  , chatCall := fun _ _ _ _ => .error e3
  , jsonParse := fun _ => none }

/-- Environment in which the first two models fail and the third succeeds. -/
def thirdModelOkEnv : AIEnv :=
  { configured := true
  , genCall := fun m _ _ => if m == "gemini-pro" then .ok "third model text" else .error "model failed"
  , chatCall := fun _ _ _ _ => .error "model failed"
  , jsonParse := fun _ => none }

/-- C2: the adapter does try the fixed ordered model list sequentially
(first two failing and the third succeeding yields the third model text),
but when every model has failed the thrown error is the fresh constant
"All Google AI models failed" for all underlying errors e1, e2, e3 — it
does not carry the last underlying error, although the source comment above
the throw says the last error is thrown. -/
theorem generateWithGoogleAI_exhaustion_drops_last_error (e1 e2 e3 : String) :
    generateWithGoogleAI (allFailEnv e1 e2 e3) "p" {}
      = .error (.generic "All Google AI models failed")
    ∧ generateWithGoogleAI thirdModelOkEnv "p" {} = .ok "third model text" := by
  constructor
  · rfl
  · rfl

/-- Environment whose provider is entirely down (every call fails); the
classifier absorbs this, so control still reaches the conversation load. -/
def downProviderEnv : AIEnv :=
  { configured := true
  , genCall := fun _ _ _ => .error "provider down"
  , chatCall := fun _ _ _ _ => .error "provider down"
  , jsonParse := fun _ => none }

/-- C1 counterexample: with a supplied conversation id and user id and an
absent conversation (empty store), `processLegalQuery` does not fail with
the NotFound error of status 404: the inner catch re-wraps it into the
uniform 500 error "Error processing legal query: Conversation not found". -/
theorem processLegalQuery_notFound_rewrapped_cex :
    (processLegalQuery downProviderEnv [] "What is a lease?"
        { conversationId := some 1, userId := some 2 }).fst
      = .error (.api "Error processing legal query: Conversation not found" INTERNAL_SERVER_ERROR)
    ∧ (processLegalQuery downProviderEnv [] "What is a lease?"
        { conversationId := some 1, userId := some 2 }).fst
      ≠ .error (.api "Conversation not found" NOT_FOUND) := by
  constructor
  · decide
  · decide

/-- C1 amended: whenever a conversation id and user id are both supplied and
the conversation is absent, not owned by that user, or soft-deleted (the
store filter misses), `processLegalQuery` fails with the uniform 500 error
wrapping the NotFound message — the inner generation catch re-wraps every
error raised there, including errors already in the uniform shape, so the
NotFound status does not survive; only uniform-shape errors raised outside
that inner block (validation, persistence) pass through the outer boundary
unchanged. -/
theorem processLegalQuery_missing_conversation_wrapped (env : AIEnv)
    (db : List Conversation) (message : String) (opts : Options) (cid uid : Nat)
    (hm : message ≠ "") (hc : opts.conversationId = some cid) (hu : opts.userId = some uid)
    (hfind : db.find? (fun c => c.id == cid && c.userId == uid && c.status != "deleted") = none) :
    (processLegalQuery env db message opts).fst
      = .error (.api "Error processing legal query: Conversation not found" INTERNAL_SERVER_ERROR) := by
  have h1 : legalQueryHistory db opts = .error (.api "Conversation not found" NOT_FOUND) := by
    unfold legalQueryHistory getConversation
    rw [hc, hu]
    simp [hfind]
  unfold processLegalQuery legalQueryGenerate
  rw [if_neg (by simp [hm]), h1]
  simp [wrapInner, wrapOuter, errMessage]

/-- C1 witness: the amended theorem at a store holding only a soft-deleted
conversation with the queried id and owner. -/
theorem processLegalQuery_missing_conversation_wrapped_witness :
    (processLegalQuery downProviderEnv
        [{ id := 5, userId := 9, title := "t", description := ""
         , status := "deleted", messages := [seedSystemMessage] }]
        "hi" { conversationId := some 5, userId := some 9 }).fst
      = .error (.api "Error processing legal query: Conversation not found" INTERNAL_SERVER_ERROR) :=
  processLegalQuery_missing_conversation_wrapped downProviderEnv
    [{ id := 5, userId := 9, title := "t", description := ""
     , status := "deleted", messages := [seedSystemMessage] }]
    "hi" { conversationId := some 5, userId := some 9 } 5 9
    (by decide) rfl rfl (by decide)

/-- C10: when the metadata supplied to `addMessage` lacks a type field, the
persisted message carries metadata whose type defaults from the role —
"system" for a system role and "chat" otherwise — so every stored message
has a metadata type even when the caller provides none. -/
theorem addMessage_metadata_type_default (db : List Conversation) (cid uid : Nat)
    (role content : String) (metadata : Metadata) (db' : List Conversation) (c' : Conversation)
    (hty : metadata.type = none)
    (h : addMessage db (some cid) (some uid) role content metadata = .ok (db', c')) :
    c'.messages.getLast?
      = some { role := role, content := content
             , metadata := { metadata with
                 type := some (if role == "system" then "system" else "chat") } } := by
  unfold addMessage at h
  by_cases hr : (role == "") = true
  · rw [if_pos hr] at h; cases h
  · rw [if_neg hr] at h
    by_cases hc2 : (content == "") = true
    · rw [if_pos hc2] at h; cases h
    · rw [if_neg hc2] at h
      rw [hty] at h
      simp only [Option.getD_none, beq_self_eq_true, if_true] at h
      cases hg : getConversation db (some cid) (some uid) with
      | error e => rw [hg] at h; cases h
      | ok conv =>
        rw [hg] at h
        simp only [Except.ok.injEq, Prod.mk.injEq] at h
        rw [← h.2]
        unfold conversationAddMessage
        simp only []
        exact getLast?_append_singleton _ _

/-- A conversation used by the concrete witnesses: one active conversation
with only the seed system message. -/
def sampleConv : Conversation :=
  { id := 1, userId := 7, title := "t", description := ""
  , status := "active", messages := [seedSystemMessage] }

/-- C10 witness: adding a user message with type-less metadata to the sample
store persists it with metadata type "chat". -/
theorem addMessage_metadata_type_default_witness :
    ((conversationAddMessage sampleConv "user" "hi"
        { type := some "chat" }).messages.getLast?)
      = some { role := "user", content := "hi", metadata := { type := some "chat" } } := by
  have h := addMessage_metadata_type_default [sampleConv] 1 7 "user" "hi" {}
    [conversationAddMessage sampleConv "user" "hi" { type := some "chat" }]
    (conversationAddMessage sampleConv "user" "hi" { type := some "chat" })
    rfl (by decide)
  simpa using h

/-- Environment whose Google AI client is not configured: the classifier
call fails with the plain configuration error. -/
def unconfiguredEnv : AIEnv :=
  { configured := false
  , genCall := fun _ _ _ => .error "unused"
  , chatCall := fun _ _ _ _ => .error "unused"
  , jsonParse := fun _ => none }

/-- Environment returning a response with no parseable JSON anywhere. -/
def noJsonEnv : AIEnv :=
  { configured := true
  , genCall := fun _ _ _ => .ok "no json here"
  , chatCall := fun _ _ _ _ => .error "unused"
  , jsonParse := fun _ => none }

/-- Environment returning a parseable classification that omits the
confidence field. -/
def noConfidenceEnv : AIEnv :=
  { configured := true
  , genCall := fun _ _ _ => .ok "resp"
  , chatCall := fun _ _ _ _ => .error "unused"
  , jsonParse := fun s => if s == "resp" then some { type := some "summarize" } else none }

/-- C5: the classifier never surfaces an error (it is total by
construction); on any provider error it returns exactly the default intent
of type "general" and confidence 0.95; when the direct parse and the
brace-substring parse both fail it returns exactly the same default; and on
a successful parse a missing confidence defaults to 0.95. -/
theorem analyzeIntent_graceful_default (env : AIEnv) (message : String) :
    (∀ e, generateWithGoogleAI env message analyzeIntentOptions = .error e →
      analyzeIntent env message = { type := "general", clauseType := none, confidence := 0.95 })
    ∧ (∀ t, generateWithGoogleAI env message analyzeIntentOptions = .ok t →
      env.jsonParse t = none → (braceMatch t).bind env.jsonParse = none →
      analyzeIntent env message = { type := "general", clauseType := none, confidence := 0.95 })
    ∧ (∀ t r, generateWithGoogleAI env message analyzeIntentOptions = .ok t →
      env.jsonParse t = some r → r.confidence = none →
      (analyzeIntent env message).confidence = 0.95) := by
  refine ⟨?_, ?_, ?_⟩
  · intro e he
    unfold analyzeIntent
    rw [he]
  · intro t ht h1 h2
    unfold analyzeIntent
    rw [ht]
    cases hb : braceMatch t with
    | none => simp [h1, hb]
    | some sub =>
      rw [hb] at h2
      simp only [Option.some_bind] at h2
      simp [h1, hb, h2]
  · intro t r ht hr hc
    unfold analyzeIntent
    rw [ht]
    simp [hr, hc]

/-- C5 witness: the three arms of the graceful-degradation theorem at the
three concrete environments (provider error, unparseable response, parse
without confidence). -/
theorem analyzeIntent_graceful_default_witness :
    analyzeIntent unconfiguredEnv "m" = { type := "general", clauseType := none, confidence := 0.95 }
    ∧ analyzeIntent noJsonEnv "m" = { type := "general", clauseType := none, confidence := 0.95 }
    ∧ (analyzeIntent noConfidenceEnv "m").confidence = 0.95 :=
  ⟨(analyzeIntent_graceful_default unconfiguredEnv "m").1
      (.generic "Google AI not configured") rfl,
   (analyzeIntent_graceful_default noJsonEnv "m").2.1 "no json here" rfl rfl (by decide),
   (analyzeIntent_graceful_default noConfidenceEnv "m").2.2 "resp"
      { type := some "summarize" } rfl (by decide) rfl⟩

theorem suggestions_foldl (lines : List String) :
    ∀ acc : List String,
    lines.foldl (fun suggestions line =>
        match actionVerbs.find? (fun verb => jsStartsWith (jsTrim line) verb) with
        | some _ => suggestions ++ [jsTrim line]
        | none => suggestions) acc
      = acc ++ (lines.map jsTrim).filter (fun l => actionVerbs.any (fun v => jsStartsWith l v)) := by
  induction lines with
  | nil => intro acc; simp
  | cons line rest ih =>
    intro acc
    simp only [List.foldl_cons, List.map_cons, List.filter_cons]
    cases hf : actionVerbs.find? (fun verb => jsStartsWith (jsTrim line) verb) with
    | none =>
      have hany : (actionVerbs.any (fun v => jsStartsWith (jsTrim line) v)) = false := by
        rw [List.find?_eq_none] at hf
        by_contra hcon
        rw [Bool.not_eq_false, List.any_eq_true] at hcon
        obtain ⟨v, hv, hp⟩ := hcon
        exact absurd hp (by simpa using hf v hv)
      rw [ih acc, hany]
      simp
    | some v =>
      have hany : (actionVerbs.any (fun v => jsStartsWith (jsTrim line) v)) = true := by
        rw [List.any_eq_true]
        exact ⟨v, List.mem_of_find?_eq_some hf, List.find?_some hf⟩
      rw [ih (acc ++ [jsTrim line]), hany]
      simp

/-- C8: `extractSuggestions` splits its input into lines and emits, trimmed
and in original order, exactly the lines whose trimmed form starts with one
of the eleven fixed action verbs, each such line emitted once (the first
matching verb ends the scan of that line); in particular the three-line
spec example yields exactly the two qualifying lines in order. -/
theorem extractSuggestions_spec :
    (∀ s : String, extractSuggestions (.jstr s)
      = ((splitLines s).map jsTrim).filter (fun l => actionVerbs.any (fun v => jsStartsWith l v)))
    ∧ extractSuggestions (.jstr "Consider revising.\nThe sky is blue.\nReview clause 4.")
      = ["Consider revising.", "Review clause 4."] := by
  constructor
  · intro s
    simp only [extractSuggestions]
    by_cases h : (s == "") = true
    · have hs : s = "" := by simpa using h
      subst hs
      decide
    · rw [if_neg h, suggestions_foldl]
      simp
  · decide

theorem getConversation_error_api (db : List Conversation) (cid uid : Nat)
    (e : JSError) (h : getConversation db (some cid) (some uid) = .error e) :
    ∃ m s, e = .api m s := by
  cases hf : db.find? (fun c => c.id == cid && c.userId == uid && c.status != "deleted") with
  | none =>
    unfold getConversation at h
    simp only [hf, Except.error.injEq] at h
    exact ⟨_, _, h.symm⟩
  | some c =>
    unfold getConversation at h
    simp [hf] at h

theorem addMessage_error_api (db : List Conversation) (cid uid : Nat)
    (role content : String) (md : Metadata) (e : JSError)
    (h : addMessage db (some cid) (some uid) role content md = .error e) :
    ∃ m s, e = .api m s := by
  unfold addMessage at h
  by_cases hr : (role == "") = true
  · rw [if_pos hr] at h
    simp only [Except.error.injEq] at h
    exact ⟨_, _, h.symm⟩
  · rw [if_neg hr] at h
    by_cases hct : (content == "") = true
    · rw [if_pos hct] at h
      simp only [Except.error.injEq] at h
      exact ⟨_, _, h.symm⟩
    · rw [if_neg hct] at h
      cases hg : getConversation db (some cid) (some uid) with
      | error e2 =>
        simp only [hg, Except.error.injEq] at h
        exact h ▸ getConversation_error_api db cid uid e2 hg
      | ok conv => simp [hg] at h

/-- C4: when a conversation id and user id were supplied and the generation
step succeeded with text `t`, the overall result of `processLegalQuery` is
exactly the outcome of the two sequential appends: if appending the user
turn fails the operation fails with that persistence error unchanged, if
appending the assistant turn fails after the user turn succeeded the
operation fails with that persistence error unchanged, and only when both
turns were recorded does it return the generated text — never a partial
success (persistence errors are already in the uniform shape, so the outer
boundary passes them through). -/
theorem processLegalQuery_no_partial_success (env : AIEnv) (db : List Conversation)
    (message : String) (opts : Options) (cid uid : Nat) (t : String)
    (hm : message ≠ "")
    (hc : opts.conversationId = some cid) (hu : opts.userId = some uid)
    (hgen : legalQueryGenerate env db message opts
        (prepareSystemMessage (analyzeIntent env message) opts.documentType opts.tone) = .ok t) :
    (processLegalQuery env db message opts).fst
      = (match addMessage db (some cid) (some uid) "user" message
            { type := some (mapIntentToMetadataType (analyzeIntent env message).type) } with
         | .error e => .error e
         | .ok (db1, _) =>
           match addMessage db1 (some cid) (some uid) "assistant" t
               (assembleMetadata opts (analyzeIntent env message) t) with
           | .error e => .error e
           | .ok _ => .ok { text := t, metadata := assembleMetadata opts (analyzeIntent env message) t }) := by
  have hm' : (message == "") = false := by simp [hm]
  cases h1 : addMessage db (some cid) (some uid) "user" message
      { type := some (mapIntentToMetadataType (analyzeIntent env message).type) } with
  | error e =>
    obtain ⟨m, s, rfl⟩ := addMessage_error_api db cid uid "user" message _ e h1
    simp only [processLegalQuery, hm', Bool.false_eq_true, if_false, hc, hu, hgen, h1, wrapOuter]
  | ok p =>
    obtain ⟨db1, c1⟩ := p
    cases h2 : addMessage db1 (some cid) (some uid) "assistant" t
        (assembleMetadata opts (analyzeIntent env message) t) with
    | error e =>
      obtain ⟨m, s, rfl⟩ := addMessage_error_api db1 cid uid "assistant" t _ e h2
      simp only [processLegalQuery, hm', Bool.false_eq_true, if_false, hc, hu, hgen, h1, h2,
        wrapOuter]
    | ok q =>
      obtain ⟨db2, c2⟩ := q
      simp only [processLegalQuery, hm', Bool.false_eq_true, if_false, hc, hu, hgen, h1, h2]

/-- Environment whose single-turn generation succeeds with the empty
response text (and whose classifier response parses to nothing). -/
def emptyResponseEnv : AIEnv :=
  { configured := true
  , genCall := fun _ _ _ => .ok ""
  , chatCall := fun _ _ _ _ => .error "unused"
  , jsonParse := fun _ => none }

/-- C4 witness: with the empty-response environment the user turn is
persisted and the assistant-turn append fails on the empty content, so the
whole operation fails with that persistence error. -/
theorem processLegalQuery_no_partial_success_witness :
    (processLegalQuery emptyResponseEnv [sampleConv] "hello"
        { conversationId := some 1, userId := some 7 }).fst
      = .error (.api "Message content is required" BAD_REQUEST) :=
  (processLegalQuery_no_partial_success emptyResponseEnv [sampleConv] "hello"
    { conversationId := some 1, userId := some 7 } 1 7 ""
    (by decide) rfl rfl (by decide)).trans (by decide)

theorem toProviderHistory_addMessage (c : Conversation) (r ct : String) (md : Metadata) :
    toProviderHistory (conversationAddMessage c r ct md)
      = toProviderHistory c
        ++ (if r == "system" then [] else
            [{ role := if r == "user" then "user" else "model", parts := ct }]) := by
  unfold toProviderHistory conversationAddMessage
  by_cases h : r = "system"
  · subst h
    simp [List.filter_append]
  · simp [List.filter_append, List.filter_cons, h]

theorem toProviderHistory_foldl (msgs : List (String × String)) (md : Metadata) :
    ∀ c : Conversation, (∀ m ∈ msgs, m.1 = "user" ∨ m.1 = "assistant") →
    toProviderHistory (msgs.foldl (fun acc rm => conversationAddMessage acc rm.1 rm.2 md) c)
      = toProviderHistory c
        ++ msgs.map (fun rm =>
            { role := if rm.1 == "user" then "user" else "model", parts := rm.2 }) := by
  induction msgs with
  | nil => intro c _; simp
  | cons m rest ih =>
    intro c hroles
    simp only [List.foldl_cons, List.map_cons]
    rw [ih (conversationAddMessage c m.1 m.2 md) (fun x hx => hroles x (by simp [hx]))]
    rw [toProviderHistory_addMessage]
    have hns : (m.1 == "system") = false := by
      rcases hroles m (by simp) with h | h <;> simp [h]
    simp [hns, List.append_assoc]

theorem tryModelsChat_ok_history (env : AIEnv) (sys : String) (history : List HistEntry)
    (prompt : String) (t : String) (h' : List HistEntry) :
    ∀ ms : List String, tryModelsChat env sys history prompt ms = .ok (t, h') →
    h' = history ++ [{ role := "user", parts := prompt }, { role := "model", parts := t }] := by
  intro ms
  induction ms with
  | nil => intro h; simp [tryModelsChat] at h
  | cons m rest ih =>
    intro h
    unfold tryModelsChat at h
    cases hc : env.chatCall m sys (googleChatHistory history) prompt with
    | ok rt =>
      rw [hc] at h
      simp only [Except.ok.injEq, Prod.mk.injEq] at h
      rw [← h.2, h.1]
    | error e =>
      rw [hc] at h
      exact ih h

/-- C6: round-trip — appending any sequence of non-system (user/assistant)
turns to a conversation whose provider history is empty, then loading the
non-system messages and converting them to provider-history format, yields
exactly those turns in original order with roles mapped user to user and
assistant to model; and a successful `generateWithChatHistory` returns the
updated history equal to the input history plus the new user turn and the
new model turn appended in that order. -/
theorem history_roundtrip (c : Conversation) (msgs : List (String × String)) (md : Metadata)
    (env : AIEnv) (prompt : String) (history : List HistEntry) (options : GenOptions)
    (t : String) (h' : List HistEntry)
    (hfresh : toProviderHistory c = [])
    (hroles : ∀ m ∈ msgs, m.1 = "user" ∨ m.1 = "assistant")
    (hchat : generateWithChatHistory env prompt history options = .ok (t, h')) :
    toProviderHistory (msgs.foldl (fun acc rm => conversationAddMessage acc rm.1 rm.2 md) c)
      = msgs.map (fun rm => { role := if rm.1 == "user" then "user" else "model", parts := rm.2 })
    ∧ h' = history ++ [{ role := "user", parts := prompt }, { role := "model", parts := t }] := by
  constructor
  · rw [toProviderHistory_foldl msgs md c hroles, hfresh]
    simp
  · unfold generateWithChatHistory at hchat
    by_cases hcfg : env.configured
    · rw [if_neg (by simp [hcfg])] at hchat
      exact tryModelsChat_ok_history env _ history prompt t h' modelNames hchat
    · rw [if_pos (by simp [hcfg])] at hchat
      cases hchat

/-- Environment whose chat generation succeeds immediately with the text
"a". -/
def chatOkEnv : AIEnv :=
  { configured := true
  , genCall := fun _ _ _ => .error "unused"
  , chatCall := fun _ _ _ _ => .ok "a"
  , jsonParse := fun _ => none }

/-- C6 witness: the round-trip at two concrete turns appended to the sample
conversation, and a concrete successful chat generation from the empty
history. -/
theorem history_roundtrip_witness :
    toProviderHistory ([(("user" : String), ("hi" : String)), ("assistant", "yo")].foldl
        (fun acc rm => conversationAddMessage acc rm.1 rm.2 {}) sampleConv)
      = [{ role := "user", parts := "hi" }, { role := "model", parts := "yo" }]
    ∧ ([{ role := "user", parts := "q" }, { role := "model", parts := "a" }] : List HistEntry)
      = [] ++ [{ role := "user", parts := "q" }, { role := "model", parts := "a" }] :=
  history_roundtrip sampleConv [("user", "hi"), ("assistant", "yo")] {} chatOkEnv "q" [] {}
    "a" [{ role := "user", parts := "q" }, { role := "model", parts := "a" }]
    (by decide) (by decide) (by decide)

end Construct
